import Mathlib

/-!
Verification of `src/languages/python/parse.py` from the dockerizeme
repository.  The script parses Python source files and reports, per file,
the modules imported and the method calls made, each call attributed back
to its originating library.

External collaborators (the Python `ast` module and the filesystem) are
modelled at their boundary; the `ParserVisitor` class lives in a module
that is not part of the sources here, so it is modelled from the
specification.
-/

namespace DockerizeMe

/-- A Python expression, restricted to the node kinds the visitor
distinguishes: bare names, attribute accesses, calls, and an opaque
constant standing for every other expression shape. -/
inductive PyExpr where
  | name (id : String)
  | attribute (value : PyExpr) (attr : String)
  | call (func : PyExpr) (args : List PyExpr)
  | const
deriving Repr

/-- A Python statement, restricted to the node kinds the visitor
distinguishes: `import` statements (a list of module/alias pairs),
`from ... import ...` statements, and expression statements. -/
inductive PyStmt where
  | imp (names : List (String × Option String))
  | importFrom (module : String) (names : List (String × Option String))
  | exprStmt (e : PyExpr)
deriving Repr

/-- A parsed Python module: the list of its top-level statements. -/
structure PyModule where
  body : List PyStmt
deriving Repr

/-- The exceptions `ast.parse` may raise at the Syntax Tree Provider
boundary: `SyntaxError` for malformed source, and `ValueError` for
inputs such as text containing a null byte. -/
inductive AstError where
  | syntaxError
  | valueError
deriving Repr, DecidableEq

/-- JSON-serialisable Python values, as produced by the script for
`json.dumps`. -/
inductive PyVal where
  | str (s : String)
  | list (xs : List PyVal)
  | dict (entries : List (String × PyVal))
deriving Repr

/-- Modelled from the spec: `visitor.ParserVisitor` (the `visitor` module
is not among the sources).  Its state is the Import Binding Table (local
name to canonical library, most recent binding first), the first-seen
deduplicated sequence of canonical libraries, and the appearance-ordered
sequence of attributed calls (spec sections 4.1 to 4.4). -/
structure ParserVisitor where
  bindings : List (String × String)
  import_libraries : List String
  calls : List String
deriving Repr

/-- The visitor's initial state: empty table, no imports, no calls. -/
def ParserVisitor.init : ParserVisitor := ⟨[], [], []⟩

/-- The characters of a module path before its first dot. -/
def takeUntilDot : List Char → List Char
  | [] => []
  | c :: cs => if c = '.' then [] else c :: takeUntilDot cs

/-- The leftmost segment of a dotted module path (the local name bound by
an unaliased `import X.Y.Z`). -/
def leftmostSegment (m : String) : String := String.mk (takeUntilDot m.toList)

/-- Append a canonical library to the first-seen list unless already
present (duplicates removed, order = first seen). -/
def addFirstSeen (libs : List String) (lib : String) : List String :=
  if libs.contains lib then libs else libs ++ [lib]

/-- Modelled from the spec: install one import binding (local name to
canonical library) and record the canonical library first-seen. -/
def ParserVisitor.bindLib (v : ParserVisitor) (localName canonical : String) :
    ParserVisitor :=
  { v with
    bindings := (localName, canonical) :: v.bindings
    import_libraries := addFirstSeen v.import_libraries canonical }

/-- Modelled from the spec: visit an `import` statement.  `import X` binds
`X` to `X`; `import X as Y` binds `Y` to `X`; a dotted `import X.Y.Z`
binds the leftmost segment to the full dotted path. -/
def ParserVisitor.visitImport (v : ParserVisitor)
    (names : List (String × Option String)) : ParserVisitor :=
  names.foldl
    (fun v p => v.bindLib (p.2.getD (leftmostSegment p.1)) p.1) v

/-- Modelled from the spec: visit a `from X import ...` statement.
`from X import Y` binds `Y` to `X`; `from X import Y as Z` binds `Z`
to `X` (the module is the attribution target, not `X.Y`). -/
def ParserVisitor.visitImportFrom (v : ParserVisitor) (module : String)
    (names : List (String × Option String)) : ParserVisitor :=
  names.foldl (fun v p => v.bindLib (p.2.getD p.1) module) v

/-- Best-effort textual rendering of a callee expression, used as the
unresolved fallback. -/
def renderCallee : PyExpr → String
  | .name id => id
  | .attribute value attr => renderCallee value ++ "." ++ attr
  | .call f _ => renderCallee f ++ "()"
  | .const => "<expr>"

/-- The leftmost identifier of an attribute chain, when the chain bottoms
out in a bare name. -/
def leftmostName : PyExpr → Option String
  | .name id => some id
  | .attribute value _ => leftmostName value
  | _ => none

/-- Modelled from the spec: the Call Attribution Resolver (spec 4.2).
A bare name is looked up in the binding table, falling back to the name
itself; an attribute chain is resolved through its leftmost identifier,
falling back to the full dotted text; any other callee shape falls back
to its textual rendering.  It always produces exactly one string. -/
def resolveCallee (bindings : List (String × String)) : PyExpr → String
  | .name id => (bindings.lookup id).getD id
  | .attribute value attr =>
    match leftmostName (.attribute value attr) with
    | some id =>
      match bindings.lookup id with
      | some lib => lib
      | none => renderCallee (.attribute value attr)
    | none => renderCallee (.attribute value attr)
  | e => renderCallee e

mutual

/-- Modelled from the spec: the Tree Walker on expressions.  A call node
records its attribution using the table state as of that point, then
descends into the callee and the arguments; other nodes are traversed
transparently. -/
def ParserVisitor.visitExpr (v : ParserVisitor) : PyExpr → ParserVisitor
  | .call f args =>
    ParserVisitor.visitExprList
      (ParserVisitor.visitExpr
        { v with calls := v.calls ++ [resolveCallee v.bindings f] } f)
      args
  | .attribute value _ => ParserVisitor.visitExpr v value
  | .name _ => v
  | .const => v

/-- Modelled from the spec: the Tree Walker on a list of sibling
expressions, in source order. -/
def ParserVisitor.visitExprList (v : ParserVisitor) :
    List PyExpr → ParserVisitor
  | [] => v
  | e :: es => ParserVisitor.visitExprList (ParserVisitor.visitExpr v e) es

end

/-- Modelled from the spec: the Tree Walker on one statement. -/
def ParserVisitor.visitStmt (v : ParserVisitor) : PyStmt → ParserVisitor
  | .imp names => v.visitImport names
  | .importFrom m names => v.visitImportFrom m names
  | .exprStmt e => v.visitExpr e

/-- Modelled from the spec: run the visitor over a whole module, a single
top-to-bottom traversal in source order starting from the empty state. -/
def ParserVisitor.run (t : PyModule) : ParserVisitor :=
  t.body.foldl ParserVisitor.visitStmt ParserVisitor.init

/-- The report built from one outcome of `ast.parse`: on a tree, run the
visitor and package its two sequences; on `SyntaxError`, the empty
report; any other exception propagates (only `SyntaxError` is caught in
`parse_method_call_tokens`). -/
def reportOfParse : Except AstError PyModule → Except AstError PyVal
  | .ok tree =>
    let visitor := ParserVisitor.run tree
    .ok (.dict [("imports", .list (visitor.import_libraries.map .str)),
                ("calls", .list (visitor.calls.map .str))])
  | .error .syntaxError =>
    .ok (.dict [("imports", .list []), ("calls", .list [])])
  | .error .valueError => .error .valueError

/-- `parse_method_call_tokens` from `parse.py`, parameterised by the
external `ast.parse` front-end: parse the snippet into a tree, visit it,
and return the `imports`/`calls` dictionary; `SyntaxError` yields the
empty report. -/
def parse_method_call_tokens (astParse : String → Except AstError PyModule)
    (snippet : String) : Except AstError PyVal :=
  reportOfParse (astParse snippet)

/-- The last index at which a character occurs in a list, as in Python's
`str.rfind` (restricted to found/not-found). -/
def lastIdxOf (cs : List Char) (c : Char) : Option Nat :=
  match cs with
  | [] => none
  | x :: xs =>
    match lastIdxOf xs c with
    | some i => some (i + 1)
    | none => if x = c then some 0 else none

/-- `os.path.splitext` (POSIX): split off the extension at the last dot of
the final path component, ignoring any leading dots of that component (a
basename such as `.py` has no extension). -/
def splitext (p : String) : String × String :=
  let cs := p.toList
  match lastIdxOf cs '.' with
  | none => (p, "")
  | some dotIndex =>
    let sepIndex := lastIdxOf cs '/'
    let start := match sepIndex with | none => 0 | some i => i + 1
    let sepBeforeDot := match sepIndex with
      | none => true
      | some i => decide (i < dotIndex)
    if sepBeforeDot then
      if ((cs.drop start).take (dotIndex - start)).any (fun ch => ch ≠ '.') then
        (String.mk (cs.take dotIndex), String.mk (cs.drop dotIndex))
      else (p, "")
    else (p, "")

/-- Whether a string begins with a path separator. -/
def headIsSlash (s : String) : Bool :=
  match s.toList with
  | '/' :: _ => true
  | _ => false

/-- Whether a string ends with a path separator. -/
def lastIsSlash (s : String) : Bool :=
  match s.toList.getLast? with
  | some '/' => true
  | _ => false

/-- Whether `s` ends with the suffix `t` (the plain textual sense used
when speaking of a file name's extension). -/
def strEndsWith (s t : String) : Bool := t.toList.isSuffixOf s.toList

/-- `os.path.join` (POSIX) for two components: an absolute second
component replaces the first; otherwise the components are joined with a
separator unless one is already present. -/
def pathJoin (a b : String) : String :=
  if headIsSlash b then b
  else if a = "" ∨ lastIsSlash a then a ++ b
  else a ++ "/" ++ b

/-- The filesystem and front-end boundary of `parse.py`: directory and
file tests, directory listing, file reading (`none` models an `IOError`
on `open`/`read`), path normalisation, and the external `ast.parse`. -/
structure FileSystem where
  isDir : String → Bool
  isFile : String → Bool
  listdir : String → List String
  readFile : String → Option String
  abspath : String → String
  astParse : String → Except AstError PyModule

/-- The exceptions that can escape `main`: the usage `Exception` raised on
missing arguments, an `IOError` from opening an unreadable file, and an
exception of `ast.parse` other than the caught `SyntaxError`. -/
inductive MainError where
  | usageError
  | ioError (path : String)
  | uncaught (e : AstError)
deriving Repr, DecidableEq

/-- `parse_file` from `parse.py`: open the file at the absolute path and
parse its contents.  The `open` is not guarded, so a read failure
escapes as an `IOError`; so does any uncaught `ast.parse` exception. -/
def parse_file (fs : FileSystem) (filename : String) : Except MainError PyVal :=
  match fs.readFile (fs.abspath filename) with
  | none => .error (.ioError (fs.abspath filename))
  | some content =>
    match parse_method_call_tokens fs.astParse content with
    | .ok v => .ok v
    | .error e => .error (.uncaught e)

/-- The per-child selection test of `main`'s directory loop: join the
child onto the directory, and keep it when it is a regular file whose
`splitext` extension is `.py`.  Returns the joined filename when
selected. -/
def selectChild (fs : FileSystem) (pathname child : String) : Option String :=
  let filename := pathJoin pathname child
  if fs.isFile filename && decide ((splitext filename).2 = ".py") then
    some filename
  else none

/-- `main`'s directory loop: fold over the listed children in order,
parsing each selected file and appending its report; the first escaping
per-file exception aborts the loop (and the run). -/
def processChildren (fs : FileSystem) (pathname : String) :
    List String → List (String × PyVal) → Except MainError (List (String × PyVal))
  | [], data => .ok data
  | child :: rest, data =>
    match selectChild fs pathname child with
    | some filename =>
      match parse_file fs filename with
      | .ok report => processChildren fs pathname rest (data ++ [(filename, report)])
      | .error e => .error e
    | none => processChildren fs pathname rest data

/-- The result of a completed run of `main`: the report entries in
insertion order, and the diagnostic lines printed before the final JSON
dump. -/
structure MainOutput where
  data : List (String × PyVal)
  diags : List String
deriving Repr

/-- `main` from `parse.py`: with no positional argument, raise the usage
exception; otherwise take the absolute path of the first argument and
either iterate over a directory's top-level `.py` files, parse a single
file, or print a diagnostic for a path that is neither. -/
def mainRun (fs : FileSystem) (args : List String) : Except MainError MainOutput :=
  match args with
  | [] => .error .usageError
  | arg0 :: _ =>
    let pathname := fs.abspath arg0
    if fs.isDir pathname then
      match processChildren fs pathname (fs.listdir pathname) [] with
      | .ok data => .ok ⟨data, []⟩
      | .error e => .error e
    else if fs.isFile pathname then
      match parse_file fs pathname with
      | .ok report => .ok ⟨[(pathname, report)], []⟩
      | .error e => .error e
    else
      .ok ⟨[], [pathname ++ " is not a directory or file."]⟩

/-- JSON string escaping for the two characters the reports can need. -/
def jsonEscapeChar (c : Char) : String :=
  if c = '"' then "\\\"" else if c = '\\' then "\\\\" else String.singleton c

/-- A JSON string literal. -/
def jsonStr (s : String) : String :=
  "\"" ++ String.join (s.toList.map jsonEscapeChar) ++ "\""

mutual

/-- `json.dumps` with default separators on the modelled values. -/
def jsonDumpVal : PyVal → String
  | .str s => jsonStr s
  | .list xs => "[" ++ jsonDumpItems xs ++ "]"
  | .dict es => "\x7b" ++ jsonDumpEntries es ++ "\x7d"

/-- The comma-separated items of a JSON array. -/
def jsonDumpItems : List PyVal → String
  | [] => ""
  | [x] => jsonDumpVal x
  | x :: y :: rest => jsonDumpVal x ++ ", " ++ jsonDumpItems (y :: rest)

/-- The comma-separated members of a JSON object. -/
def jsonDumpEntries : List (String × PyVal) → String
  | [] => ""
  | [(k, v)] => jsonStr k ++ ": " ++ jsonDumpVal v
  | (k, v) :: e :: rest =>
    jsonStr k ++ ": " ++ jsonDumpVal v ++ ", " ++ jsonDumpEntries (e :: rest)

end

/-- Everything a completed run prints to standard output, in order: the
diagnostic lines emitted during processing, then the single JSON dump of
the report mapping, printed once at the end. -/
def MainOutput.stdout (o : MainOutput) : List String :=
  o.diags ++ [jsonDumpVal (.dict o.data)]

/-- A value has the report shape: a dictionary with exactly the keys
`imports` and `calls`, in that order, each holding a list of strings. -/
def reportShaped (v : PyVal) : Prop :=
  ∃ imports calls : List String,
    v = .dict [("imports", .list (imports.map .str)),
               ("calls", .list (calls.map .str))]

/-- The spec's end-to-end example source text. -/
def exampleText : String :=
  "import os\nfrom json import dumps as to_json\nos.path.exists(\"x\")\nto_json(\x7b\x7d)\nundefined_call()"

/-- The syntax tree of the spec's end-to-end example, statement by
statement. -/
def exampleTree : PyModule := ⟨[
  .imp [("os", none)],
  .importFrom "json" [("dumps", some "to_json")],
  .exprStmt (.call (.attribute (.attribute (.name "os") "path") "exists") [.const]),
  .exprStmt (.call (.name "to_json") [.const]),
  .exprStmt (.call (.name "undefined_call") [])
]⟩

/-- A filesystem with no directories and no readable files. -/
def emptyFS : FileSystem :=
  { isDir := fun _ => false
    isFile := fun _ => false
    listdir := fun _ => []
    readFile := fun _ => none
    abspath := fun p => p
    astParse := fun _ => .error .syntaxError }

/-- A filesystem holding one regular file `/locked.py` that exists but
cannot be read (opening it raises `IOError`). -/
def unreadableFS : FileSystem :=
  { isDir := fun _ => false
    isFile := fun p => decide (p = "/locked.py")
    listdir := fun _ => []
    readFile := fun _ => none
    abspath := fun p => p
    astParse := fun _ => .error .syntaxError }

/-- A filesystem holding one readable file `/nb.py` whose contents make
`ast.parse` raise `ValueError` (text containing a null byte). -/
def nullByteFS : FileSystem :=
  { isDir := fun _ => false
    isFile := fun p => decide (p = "/nb.py")
    listdir := fun _ => []
    readFile := fun _ => some "import os\x00"
    abspath := fun p => p
    astParse := fun _ => .error .valueError }

/-- A filesystem with one directory `/d` whose only child is a regular
file named exactly `.py`, readable and syntactically valid. -/
def hiddenPyFS : FileSystem :=
  { isDir := fun p => decide (p = "/d")
    isFile := fun p => decide (p = "/d/.py")
    listdir := fun p => if p = "/d" then [".py"] else []
    readFile := fun _ => some ""
    abspath := fun p => p
    astParse := fun _ => .ok ⟨[]⟩ }

/-- A filesystem with one directory `/d` containing a parseable Python
file `a.py`, a non-Python file `b.txt`, and a subdirectory `sub`
containing `deep.py` at depth two. -/
def pyDirFS : FileSystem :=
  { isDir := fun p => decide (p = "/d" ∨ p = "/d/sub")
    isFile := fun p => decide (p = "/d/a.py" ∨ p = "/d/b.txt" ∨ p = "/d/sub/deep.py")
    listdir := fun p => if p = "/d" then ["a.py", "b.txt", "sub"] else
      if p = "/d/sub" then ["deep.py"] else []
    readFile := fun p => if p = "/d/a.py" then some "import os" else none
    abspath := fun p => p
    astParse := fun s => if s = "import os" then .ok ⟨[.imp [("os", none)]]⟩
      else .error .syntaxError }

/-- Any `.ok` outcome of `reportOfParse` has the report shape. -/
theorem reportOfParse_ok_shape (r : Except AstError PyModule) (v : PyVal)
    (h : reportOfParse r = .ok v) : reportShaped v := by
  cases r with
  | ok t =>
    injection h with h
    exact ⟨(ParserVisitor.run t).import_libraries, (ParserVisitor.run t).calls, h.symm⟩
  | error e =>
    cases e with
    | syntaxError =>
      injection h with h
      exact ⟨[], [], h.symm⟩
    | valueError => simp [reportOfParse] at h

/-- The only error `reportOfParse` can return is a propagated
`ValueError`, and only from a `ValueError` of the front-end. -/
theorem reportOfParse_error (r : Except AstError PyModule) (e : AstError)
    (h : reportOfParse r = .error e) :
    e = .valueError ∧ r = .error .valueError := by
  cases r with
  | ok t => simp [reportOfParse] at h
  | error e' =>
    cases e' with
    | syntaxError => simp [reportOfParse] at h
    | valueError =>
      injection h with h
      exact ⟨h.symm, rfl⟩

/-- Any report successfully returned by `parse_file` has the report
shape. -/
theorem parse_file_ok_shape (fs : FileSystem) (f : String) (v : PyVal)
    (h : parse_file fs f = .ok v) : reportShaped v := by
  unfold parse_file at h
  rcases hr : fs.readFile (fs.abspath f) with _ | content
  · simp only [hr] at h
    exact Except.noConfusion h
  · simp only [hr] at h
    rcases hp : parse_method_call_tokens fs.astParse content with e | w
    · simp only [hp] at h
      exact Except.noConfusion h
    · simp only [hp] at h
      injection h with h
      subst h
      exact reportOfParse_ok_shape _ _ hp

/-- `parse_file` never raises the usage exception. -/
theorem parse_file_ne_usage (fs : FileSystem) (f : String) :
    parse_file fs f ≠ .error .usageError := by
  intro h
  unfold parse_file at h
  rcases hr : fs.readFile (fs.abspath f) with _ | content
  · simp only [hr] at h
    injection h with h
    exact MainError.noConfusion h
  · simp only [hr] at h
    rcases hp : parse_method_call_tokens fs.astParse content with e | w
    · simp only [hp] at h
      injection h with h
      exact MainError.noConfusion h
    · simp only [hp] at h
      exact Except.noConfusion h

/-- An `IOError` from `parse_file` names a path that is indeed
unreadable. -/
theorem parse_file_ioError (fs : FileSystem) (f p : String)
    (h : parse_file fs f = .error (.ioError p)) : fs.readFile p = none := by
  unfold parse_file at h
  rcases hr : fs.readFile (fs.abspath f) with _ | content
  · simp only [hr] at h
    injection h with h
    injection h with h
    rw [← h]
    exact hr
  · simp only [hr] at h
    rcases hp : parse_method_call_tokens fs.astParse content with e | w
    · simp only [hp] at h
      injection h with h
      exact MainError.noConfusion h
    · simp only [hp] at h
      exact Except.noConfusion h

/-- An uncaught front-end exception escaping `parse_file` can only be a
`ValueError`. -/
theorem parse_file_uncaught (fs : FileSystem) (f : String) (e : AstError)
    (h : parse_file fs f = .error (.uncaught e)) : e = .valueError := by
  unfold parse_file at h
  rcases hr : fs.readFile (fs.abspath f) with _ | content
  · simp only [hr] at h
    injection h with h
    exact MainError.noConfusion h
  · simp only [hr] at h
    rcases hp : parse_method_call_tokens fs.astParse content with e' | w
    · simp only [hp] at h
      injection h with h
      injection h with h
      subst h
      exact (reportOfParse_error _ _ hp).1
    · simp only [hp] at h
      exact Except.noConfusion h

/-- The directory loop never raises the usage exception. -/
theorem processChildren_ne_usage (fs : FileSystem) (p : String) :
    ∀ (children : List String) (data : List (String × PyVal)),
      processChildren fs p children data ≠ .error .usageError := by
  intro children
  induction children with
  | nil =>
    intro data h
    exact Except.noConfusion h
  | cons c rest ih =>
    intro data h
    unfold processChildren at h
    rcases hsel : selectChild fs p c with _ | f
    · simp only [hsel] at h
      exact ih _ h
    · simp only [hsel] at h
      rcases hpf : parse_file fs f with e | w
      · simp only [hpf] at h
        injection h with h
        rw [h] at hpf
        exact parse_file_ne_usage fs f hpf
      · simp only [hpf] at h
        exact ih _ h

/-- An `IOError` escaping the directory loop names an unreadable path. -/
theorem processChildren_ioError (fs : FileSystem) (p : String) :
    ∀ (children : List String) (data : List (String × PyVal)) (q : String),
      processChildren fs p children data = .error (.ioError q) →
      fs.readFile q = none := by
  intro children
  induction children with
  | nil =>
    intro data q h
    exact Except.noConfusion h
  | cons c rest ih =>
    intro data q h
    unfold processChildren at h
    rcases hsel : selectChild fs p c with _ | f
    · simp only [hsel] at h
      exact ih _ _ h
    · simp only [hsel] at h
      rcases hpf : parse_file fs f with e | w
      · simp only [hpf] at h
        injection h with h
        rw [h] at hpf
        exact parse_file_ioError fs f q hpf
      · simp only [hpf] at h
        exact ih _ _ h

/-- An uncaught front-end exception escaping the directory loop can only
be a `ValueError`. -/
theorem processChildren_uncaught (fs : FileSystem) (p : String) :
    ∀ (children : List String) (data : List (String × PyVal)) (e : AstError),
      processChildren fs p children data = .error (.uncaught e) →
      e = .valueError := by
  intro children
  induction children with
  | nil =>
    intro data e h
    exact Except.noConfusion h
  | cons c rest ih =>
    intro data e h
    unfold processChildren at h
    rcases hsel : selectChild fs p c with _ | f
    · simp only [hsel] at h
      exact ih _ _ h
    · simp only [hsel] at h
      rcases hpf : parse_file fs f with e' | w
      · simp only [hpf] at h
        injection h with h
        rw [h] at hpf
        exact parse_file_uncaught fs f e hpf
      · simp only [hpf] at h
        exact ih _ _ h

/-- The keys produced by a completed directory loop are exactly the
selected children, in listing order, appended to the accumulator's
keys. -/
theorem processChildren_ok_keys (fs : FileSystem) (p : String) :
    ∀ (children : List String) (data data' : List (String × PyVal)),
      processChildren fs p children data = .ok data' →
      data'.map Prod.fst =
        data.map Prod.fst ++ children.filterMap (selectChild fs p) := by
  intro children
  induction children with
  | nil =>
    intro data data' h
    injection h with h
    subst h
    simp
  | cons c rest ih =>
    intro data data' h
    unfold processChildren at h
    rcases hsel : selectChild fs p c with _ | f
    · simp only [hsel] at h
      rw [ih _ _ h]
      simp [List.filterMap_cons, hsel]
    · simp only [hsel] at h
      rcases hpf : parse_file fs f with e | w
      · simp only [hpf] at h
        exact Except.noConfusion h
      · simp only [hpf] at h
        rw [ih _ _ h]
        simp [List.filterMap_cons, hsel]

/-- When every selected child parses successfully, the directory loop
completes. -/
theorem processChildren_total (fs : FileSystem) (p : String) :
    ∀ (children : List String) (data : List (String × PyVal)),
      (∀ f ∈ children.filterMap (selectChild fs p), ∃ v, parse_file fs f = .ok v) →
      ∃ data', processChildren fs p children data = .ok data' := by
  intro children
  induction children with
  | nil =>
    intro data _
    exact ⟨data, rfl⟩
  | cons c rest ih =>
    intro data hgood
    unfold processChildren
    rcases hsel : selectChild fs p c with _ | f
    · exact ih data (fun f hf => hgood f (by simp [List.filterMap_cons, hsel, hf]))
    · rcases hgood f (by simp [List.filterMap_cons, hsel]) with ⟨v, hv⟩
      simp only [hv]
      exact ih _ (fun g hg => hgood g (by simp [List.filterMap_cons, hsel, hg]))

/-- Every report accumulated by a completed directory loop has the report
shape, provided the accumulator's reports already do. -/
theorem processChildren_shape (fs : FileSystem) (p : String) :
    ∀ (children : List String) (data data' : List (String × PyVal)),
      processChildren fs p children data = .ok data' →
      (∀ kv ∈ data, reportShaped kv.2) →
      ∀ kv ∈ data', reportShaped kv.2 := by
  intro children
  induction children with
  | nil =>
    intro data data' h hdata
    injection h with h
    subst h
    exact hdata
  | cons c rest ih =>
    intro data data' h hdata
    unfold processChildren at h
    rcases hsel : selectChild fs p c with _ | f
    · simp only [hsel] at h
      exact ih _ _ h hdata
    · simp only [hsel] at h
      rcases hpf : parse_file fs f with e | w
      · simp only [hpf] at h
        exact Except.noConfusion h
      · simp only [hpf] at h
        refine ih _ _ h ?_
        intro kv hkv
        rcases List.mem_append.mp hkv with hkv | hkv
        · exact hdata kv hkv
        · have : kv = (f, w) := by simpa using hkv
          rw [this]
          exact parse_file_ok_shape fs f w hpf

/-- Classification of every fatal outcome of `main`: the usage exception
(no arguments), an `IOError` naming an unreadable file, or an uncaught
`ValueError` of the front-end.  A `SyntaxError` never escapes. -/
theorem mainRun_error_cases (fs : FileSystem) (args : List String)
    (err : MainError) (h : mainRun fs args = .error err) :
    (err = .usageError ∧ args = []) ∨
    (∃ p, err = .ioError p ∧ fs.readFile p = none) ∨
    err = .uncaught .valueError := by
  cases args with
  | nil =>
    injection h with h
    exact Or.inl ⟨h.symm, rfl⟩
  | cons a rest =>
    simp only [mainRun] at h
    cases hdir : fs.isDir (fs.abspath a) with
    | true =>
      simp [hdir] at h
      rcases hpc : processChildren fs (fs.abspath a) (fs.listdir (fs.abspath a)) [] with e | data
      · simp only [hpc] at h
        injection h with h
        subst h
        cases e with
        | usageError => exact absurd hpc (processChildren_ne_usage fs _ _ _)
        | ioError q =>
          exact Or.inr (Or.inl ⟨q, rfl, processChildren_ioError fs _ _ _ _ hpc⟩)
        | uncaught e' =>
          rw [processChildren_uncaught fs _ _ _ _ hpc]
          exact Or.inr (Or.inr rfl)
      · simp only [hpc] at h
        exact Except.noConfusion h
    | false =>
      simp [hdir] at h
      cases hfile : fs.isFile (fs.abspath a) with
      | true =>
        simp [hfile] at h
        rcases hpf : parse_file fs (fs.abspath a) with e | w
        · simp only [hpf] at h
          injection h with h
          subst h
          cases e with
          | usageError => exact absurd hpf (parse_file_ne_usage fs _)
          | ioError q =>
            exact Or.inr (Or.inl ⟨q, rfl, parse_file_ioError fs _ _ hpf⟩)
          | uncaught e' =>
            rw [parse_file_uncaught fs _ _ hpf]
            exact Or.inr (Or.inr rfl)
        · simp only [hpf] at h
          exact Except.noConfusion h
      | false =>
        simp [hfile] at h

/-- Every report entry of a completed run of `main` has the report
shape. -/
theorem mainRun_ok_shape (fs : FileSystem) (args : List String)
    (out : MainOutput) (h : mainRun fs args = .ok out) :
    ∀ kv ∈ out.data, reportShaped kv.2 := by
  cases args with
  | nil => exact Except.noConfusion h
  | cons a rest =>
    simp only [mainRun] at h
    cases hdir : fs.isDir (fs.abspath a) with
    | true =>
      simp [hdir] at h
      rcases hpc : processChildren fs (fs.abspath a) (fs.listdir (fs.abspath a)) [] with e | data
      · simp only [hpc] at h
        exact Except.noConfusion h
      · simp only [hpc] at h
        injection h with h
        subst h
        intro kv hkv
        refine processChildren_shape fs _ _ [] data hpc ?_ kv hkv
        intro kv hkv
        exact absurd hkv (List.not_mem_nil kv)
    | false =>
      simp [hdir] at h
      cases hfile : fs.isFile (fs.abspath a) with
      | true =>
        simp [hfile] at h
        rcases hpf : parse_file fs (fs.abspath a) with e | w
        · simp only [hpf] at h
          exact Except.noConfusion h
        · simp only [hpf] at h
          injection h with h
          subst h
          intro kv hkv
          have : kv = (fs.abspath a, w) := by simpa using hkv
          rw [this]
          exact parse_file_ok_shape fs _ w hpf
      | false =>
        simp [hfile] at h
        subst h
        intro kv hkv
        exact absurd hkv (List.not_mem_nil kv)

/-- C1: for an input file holding exactly the five example lines, once the
front-end parses that text into the corresponding syntax tree, the parse
operation reports `imports = ["os", "json"]` and
`calls = ["os", "json", "undefined_call"]`, in that order. -/
theorem parse_example_end_to_end
    (astParse : String → Except AstError PyModule)
    (h : astParse exampleText = .ok exampleTree) :
    parse_method_call_tokens astParse exampleText =
      .ok (.dict [("imports", .list [.str "os", .str "json"]),
                  ("calls", .list [.str "os", .str "json", .str "undefined_call"])]) := by
  unfold parse_method_call_tokens
  rw [h]
  rfl

/-- C1 witness: the same report at a concrete front-end that maps the
example text to its tree. -/
theorem parse_example_end_to_end_witness :
    parse_method_call_tokens (fun _ => Except.ok exampleTree) exampleText =
      .ok (.dict [("imports", .list [.str "os", .str "json"]),
                  ("calls", .list [.str "os", .str "json", .str "undefined_call"])]) :=
  parse_example_end_to_end (fun _ => Except.ok exampleTree) rfl

/-- C2: whenever the front-end rejects the text as malformed
(`SyntaxError`), `parse_method_call_tokens` returns exactly the empty
report `\x7bimports: [], calls: []\x7d` and raises nothing to its
caller. -/
theorem parse_malformed_empty_report
    (astParse : String → Except AstError PyModule) (s : String)
    (h : astParse s = .error .syntaxError) :
    parse_method_call_tokens astParse s =
      .ok (.dict [("imports", .list []), ("calls", .list [])]) := by
  unfold parse_method_call_tokens
  rw [h]
  rfl

/-- C2 witness: the empty report on a concrete malformed snippet. -/
theorem parse_malformed_empty_report_witness :
    parse_method_call_tokens (fun _ => Except.error AstError.syntaxError) "def f(:" =
      .ok (.dict [("imports", .list []), ("calls", .list [])]) :=
  parse_malformed_empty_report (fun _ => Except.error AstError.syntaxError) "def f(:" rfl

/-- C3 counterexample: an unreadable file is not contained to that file —
it terminates the whole run with an `IOError`, an error other than the
usage error, refuting the claim that only the absence of a path argument
may terminate the run. -/
theorem main_unreadable_file_aborts :
    mainRun unreadableFS ["/locked.py"] = .error (.ioError "/locked.py") ∧
    MainError.ioError "/locked.py" ≠ MainError.usageError :=
  ⟨rfl, by decide⟩

/-- C3 (amended): the usage exception occurs exactly on an empty argument
list; an `IOError` escaping the run names a genuinely unreadable file;
a parse failure (`SyntaxError`) is contained into the empty report; and
a directory run in which every selected file parses successfully
completes with one report entry per selected file. -/
theorem main_failure_containment (fs : FileSystem) (args : List String) :
    (mainRun fs args = .error .usageError ↔ args = []) ∧
    (∀ p, mainRun fs args = .error (.ioError p) → fs.readFile p = none) ∧
    (∀ s, fs.astParse s = .error .syntaxError →
      parse_method_call_tokens fs.astParse s =
        .ok (.dict [("imports", .list []), ("calls", .list [])])) ∧
    (∀ p, args = [p] → fs.isDir (fs.abspath p) = true →
      (∀ f ∈ (fs.listdir (fs.abspath p)).filterMap (selectChild fs (fs.abspath p)),
        ∃ v, parse_file fs f = .ok v) →
      ∃ out, mainRun fs args = .ok out ∧
        out.data.map Prod.fst =
          (fs.listdir (fs.abspath p)).filterMap (selectChild fs (fs.abspath p))) := by
  refine ⟨⟨?_, ?_⟩, ?_, ?_, ?_⟩
  · intro h
    rcases mainRun_error_cases fs args .usageError h with ⟨_, hargs⟩ | ⟨p, hp, _⟩ | hv
    · exact hargs
    · exact MainError.noConfusion hp
    · exact MainError.noConfusion hv
  · intro h
    subst h
    rfl
  · intro p h
    rcases mainRun_error_cases fs args (.ioError p) h with ⟨he, _⟩ | ⟨q, hq, hr⟩ | hv
    · exact MainError.noConfusion he
    · injection hq with hq
      rw [hq]
      exact hr
    · exact MainError.noConfusion hv
  · intro s hs
    unfold parse_method_call_tokens
    rw [hs]
    rfl
  · intro p hp hdirp hgood
    subst hp
    rcases processChildren_total fs (fs.abspath p) (fs.listdir (fs.abspath p)) [] hgood with
      ⟨data, hdata⟩
    refine ⟨⟨data, []⟩, ?_, ?_⟩
    · simp only [mainRun]
      simp [hdirp, hdata]
    · simpa using processChildren_ok_keys fs (fs.abspath p) _ [] data hdata

/-- C3 witness: the usage-error characterisation applied on the empty
argument list. -/
theorem main_failure_containment_witness :
    mainRun emptyFS [] = .error .usageError :=
  (main_failure_containment emptyFS []).1.mpr rfl

/-- C4 counterexample: a run with an argument can also abort fatally —
here with an uncaught front-end `ValueError` — so the usage error is not
the only fatal error class. -/
theorem main_usage_not_only_fatal :
    mainRun nullByteFS ["/nb.py"] = .error (.uncaught .valueError) ∧
    MainError.uncaught .valueError ≠ MainError.usageError ∧
    (["/nb.py"] : List String) ≠ [] :=
  ⟨rfl, by decide, by simp⟩

/-- C4 (amended): with zero positional path arguments, `main` raises the
usage error before consulting the filesystem, processing any file or
producing any output; it is, however, not the only fatal error class. -/
theorem main_no_args_usage (fs : FileSystem) :
    mainRun fs [] = .error .usageError := rfl

/-- C5 counterexample: a directory whose only child is a regular file
named exactly `.py` — a name that does end in `.py` — produces no report
entry, because `splitext` gives that name an empty extension. -/
theorem main_hidden_py_excluded :
    mainRun hiddenPyFS ["/d"] = .ok ⟨[], []⟩ ∧
    hiddenPyFS.listdir "/d" = [".py"] ∧
    hiddenPyFS.isFile "/d/.py" = true ∧
    strEndsWith ".py" ".py" = true :=
  ⟨rfl, rfl, by decide, by decide⟩

/-- C5 (amended): on a directory, the processed input files are exactly
the direct children that are regular files whose joined path carries the
extension `.py` under `os.path.splitext` (so a basename whose only dot
is its leading dot, such as `.py`, is excluded); subdirectories are not
descended into, so only paths joined directly onto the directory
appear. -/
theorem main_dir_selection (fs : FileSystem) (p0 : String) (out : MainOutput)
    (hdir : fs.isDir (fs.abspath p0) = true)
    (hrun : mainRun fs [p0] = .ok out) :
    out.data.map Prod.fst =
      (fs.listdir (fs.abspath p0)).filterMap (fun child =>
        if fs.isFile (pathJoin (fs.abspath p0) child) &&
            decide ((splitext (pathJoin (fs.abspath p0) child)).2 = ".py") then
          some (pathJoin (fs.abspath p0) child)
        else none) := by
  have hsel : (fun child =>
      if fs.isFile (pathJoin (fs.abspath p0) child) &&
          decide ((splitext (pathJoin (fs.abspath p0) child)).2 = ".py") then
        some (pathJoin (fs.abspath p0) child)
      else none) = selectChild fs (fs.abspath p0) := rfl
  rw [hsel]
  simp only [mainRun] at hrun
  simp [hdir] at hrun
  rcases hpc : processChildren fs (fs.abspath p0) (fs.listdir (fs.abspath p0)) [] with e | data
  · simp only [hpc] at hrun
    exact Except.noConfusion hrun
  · simp only [hpc] at hrun
    injection hrun with hrun
    subst hrun
    simpa using processChildren_ok_keys fs (fs.abspath p0) _ [] data hpc

/-- C5 witness: on the concrete directory `/d`, exactly `a.py` is
selected — not `b.txt`, not the subdirectory `sub`, and nothing at depth
two. -/
theorem main_dir_selection_witness :
    (MainOutput.mk
        [("/d/a.py", PyVal.dict [("imports", PyVal.list [PyVal.str "os"]),
                                 ("calls", PyVal.list [])])] []).data.map Prod.fst =
      (pyDirFS.listdir (pyDirFS.abspath "/d")).filterMap (fun child =>
        if pyDirFS.isFile (pathJoin (pyDirFS.abspath "/d") child) &&
            decide ((splitext (pathJoin (pyDirFS.abspath "/d") child)).2 = ".py") then
          some (pathJoin (pyDirFS.abspath "/d") child)
        else none) :=
  main_dir_selection pyDirFS "/d"
    (MainOutput.mk
      [("/d/a.py", PyVal.dict [("imports", PyVal.list [PyVal.str "os"]),
                               ("calls", PyVal.list [])])] [])
    rfl rfl

/-- C6: a completed run prints the diagnostics followed by a single JSON
dump of the whole report mapping, once, at the end; and every report
entry is a dictionary with exactly the keys `imports` and `calls`, each
an array of strings. -/
theorem main_single_json_output (fs : FileSystem) (args : List String)
    (out : MainOutput) (h : mainRun fs args = .ok out) :
    out.stdout = out.diags ++ [jsonDumpVal (.dict out.data)] ∧
    ∀ kv ∈ out.data, ∃ imports calls : List String,
      kv.2 = PyVal.dict [("imports", .list (imports.map .str)),
                         ("calls", .list (calls.map .str))] :=
  ⟨rfl, mainRun_ok_shape fs args out h⟩

/-- C6 witness: the output shape on the concrete directory run. -/
theorem main_single_json_output_witness :
    (MainOutput.mk
        [("/d/a.py", PyVal.dict [("imports", PyVal.list [PyVal.str "os"]),
                                 ("calls", PyVal.list [])])] []).stdout =
      (MainOutput.mk
        [("/d/a.py", PyVal.dict [("imports", PyVal.list [PyVal.str "os"]),
                                 ("calls", PyVal.list [])])] []).diags ++
        [jsonDumpVal (.dict
          [("/d/a.py", PyVal.dict [("imports", PyVal.list [PyVal.str "os"]),
                                   ("calls", PyVal.list [])])])] :=
  (main_single_json_output pyDirFS ["/d"]
    (MainOutput.mk
      [("/d/a.py", PyVal.dict [("imports", PyVal.list [PyVal.str "os"]),
                               ("calls", PyVal.list [])])] []) rfl).1

/-- C7: for a path that is neither an existing file nor a directory,
`main` still completes: it emits the diagnostic line, produces no report
entry for the path, and prints the JSON dump of the empty mapping. -/
theorem main_invalid_path_diagnostic (fs : FileSystem) (p0 : String)
    (hdir : fs.isDir (fs.abspath p0) = false)
    (hfile : fs.isFile (fs.abspath p0) = false) :
    mainRun fs [p0] =
      .ok ⟨[], [fs.abspath p0 ++ " is not a directory or file."]⟩ ∧
    MainOutput.stdout ⟨[], [fs.abspath p0 ++ " is not a directory or file."]⟩ =
      [fs.abspath p0 ++ " is not a directory or file.", "\x7b\x7d"] := by
  constructor
  · simp only [mainRun]
    simp [hdir, hfile]
  · rfl

/-- C7 witness: the diagnostic run on a concrete missing path. -/
theorem main_invalid_path_diagnostic_witness :
    mainRun emptyFS ["/nope"] =
      .ok ⟨[], [emptyFS.abspath "/nope" ++ " is not a directory or file."]⟩ ∧
    MainOutput.stdout ⟨[], [emptyFS.abspath "/nope" ++ " is not a directory or file."]⟩ =
      [emptyFS.abspath "/nope" ++ " is not a directory or file.", "\x7b\x7d"] :=
  main_invalid_path_diagnostic emptyFS "/nope" rfl rfl

/-- C8: parsing is deterministic and a pure function of the front-end's
tree: any two invocations whose front-end outcomes agree return
identical reports, with no dependence on any other state. -/
theorem parse_pure_function (ap1 ap2 : String → Except AstError PyModule)
    (s1 s2 : String) (h : ap1 s1 = ap2 s2) :
    parse_method_call_tokens ap1 s1 = parse_method_call_tokens ap2 s2 :=
  congrArg reportOfParse h

/-- C8 witness: two distinct front-end functions agreeing on their
snippets produce the same report. -/
theorem parse_pure_function_witness :
    parse_method_call_tokens
        (fun s => if s = "a" then Except.ok exampleTree else Except.error .syntaxError) "a" =
      parse_method_call_tokens (fun _ => Except.ok exampleTree) "b" :=
  parse_pure_function
    (fun s => if s = "a" then Except.ok exampleTree else Except.error .syntaxError)
    (fun _ => Except.ok exampleTree) "a" "b" rfl

/-- C9: every value returned by `parse_method_call_tokens` — from a tree
or from recovered malformed source — is a dictionary with exactly the
two keys `imports` and `calls`, each holding a list of strings. -/
theorem parse_result_two_keys (astParse : String → Except AstError PyModule)
    (s : String) (v : PyVal) (h : parse_method_call_tokens astParse s = .ok v) :
    ∃ imports calls : List String,
      v = .dict [("imports", .list (imports.map .str)),
                 ("calls", .list (calls.map .str))] :=
  reportOfParse_ok_shape (astParse s) v h

/-- C9 witness: the shape at a concrete malformed input. -/
theorem parse_result_two_keys_witness :
    ∃ imports calls : List String,
      PyVal.dict [("imports", PyVal.list []), ("calls", PyVal.list [])] =
        PyVal.dict [("imports", .list (imports.map .str)),
                    ("calls", .list (calls.map .str))] :=
  parse_result_two_keys (fun _ => Except.error AstError.syntaxError) "x"
    (.dict [("imports", .list []), ("calls", .list [])]) rfl

/-- C10: only `SyntaxError` is recovered: when the front-end raises a
`ValueError` (as `ast.parse` does on text containing a null byte), the
exception propagates out of `parse_method_call_tokens` instead of
yielding an empty report. -/
theorem parse_valueError_propagates (astParse : String → Except AstError PyModule)
    (s : String) (h : astParse s = .error .valueError) :
    parse_method_call_tokens astParse s = .error .valueError := by
  unfold parse_method_call_tokens
  rw [h]
  rfl

/-- C10 witness: propagation on a concrete null-byte snippet. -/
theorem parse_valueError_propagates_witness :
    parse_method_call_tokens (fun _ => Except.error AstError.valueError)
        "import os\x00" = .error .valueError :=
  parse_valueError_propagates (fun _ => Except.error AstError.valueError)
    "import os\x00" rfl

end DockerizeMe
